import Mathlib

/-!
Verification of the DroneScan detection pipeline (tools/dronescan.py).

Python strings are embedded as `List Char` (`Str`).  `str.strip` becomes
whitespace-dropping at both ends, `str.upper` becomes an ASCII character-wise
case fold (`Char.toUpper`), single-character `str.replace` becomes a
character map, `str.split(":")` becomes `List.splitOn ':'`, and
`":".join` becomes `List.intercalate [':']`.  Files are embedded as their
already-CSV-split rows (`List (List Str)`), behind an `Option` that is `none`
when the file does not exist; the filesystem is a function from paths to such
optional contents.  Time is embedded as `Int` (the code only compares
differences of timestamps against the integral `--dedup-secs` window).
Compiled SSID regular expressions are embedded as opaque Boolean search
predicates `Str → Bool` (the code only ever calls `rx.search`).
-/

namespace DroneScan

/-- Python strings are modelled as lists of characters. -/
abbrev Str := List Char

/-- Character-wise model of `str.upper` (ASCII case fold). -/
def upper (s : Str) : Str := s.map Char.toUpper

/-- Model of `str.strip()`: drop whitespace from both ends. -/
def strip (s : Str) : Str :=
  ((s.dropWhile Char.isWhitespace).reverse.dropWhile Char.isWhitespace).reverse

/-- The character map underlying `str.replace("-", ":")`. -/
def dashToColonChar (c : Char) : Char := if c = '-' then ':' else c

/-- The character map sending every colon to a dash (for stating
separator-style invariance). -/
def colonToDashChar (c : Char) : Char := if c = ':' then '-' else c

/-- Model of `str.replace("-", ":")` (single-character replace is a map). -/
def dashToColon (s : Str) : Str := s.map dashToColonChar

/-- Rewrite every colon of a string as a dash (the other separator style). -/
def colonToDash (s : Str) : Str := s.map colonToDashChar

/-- The normalisation applied to a hardware address by `mac_to_oui`
(line 110: `(mac or "").strip().upper().replace("-", ":")`). -/
def normalizeMac (mac : Str) : Str := dashToColon (upper (strip mac))

/-- Embedding of `mac_to_oui` (dronescan.py lines 109-113): normalise the
address, require the canonical 17-character / 5-colon shape, and return the
first three colon-separated groups re-joined with colons. -/
def mac_to_oui (mac : Str) : Str :=
  let m := normalizeMac mac
  if m.length = 17 ∧ m.count ':' = 5 then
    List.intercalate [':'] ((m.splitOn ':').take 3)
  else []

/-- Embedding of the per-row body of `load_ouis` (lines 60-63): the cell is
`row.get("oui")` (`none` when the column is missing), and the row contributes
a set member exactly when the normalised cell splits into 3 colon-separated
groups of length 2. -/
def ouiOfRow (cell : Option Str) : Option Str :=
  let oui := dashToColon (upper (strip (cell.getD [])))
  let parts := oui.splitOn ':'
  if parts.length = 3 ∧ ∀ x ∈ parts, x.length = 2 then
    some (List.intercalate [':'] parts)
  else none

/-- The OUI set contributed by one source file of `load_ouis`: a missing file
(`none`) contributes nothing (lines 54-56), otherwise every valid row's
normalised OUI is added to the set. -/
def load_ouis_file (file : Option (List (Option Str))) : Finset Str :=
  match file with
  | none => ∅
  | some rows => (rows.filterMap ouiOfRow).toFinset

/-- Embedding of `load_ouis` (lines 47-64): the union of the sets loaded from
`data/oui_drones.csv` and, when `include_modules` is set, `data/oui_modules.csv`.
Each file is given as the list of its rows' `oui` cells. -/
def load_ouis (drones modules : Option (List (Option Str))) (include_modules : Bool) : Finset Str :=
  load_ouis_file drones ∪ (if include_modules then load_ouis_file modules else ∅)

/-- One parsed access-point record (the dict built at lines 155-162). -/
structure APRecord where
  bssid : Str
  essid : Str
  channel : Str
  power : Str
  first_seen : Str
  last_seen : Str
deriving DecidableEq, Repr

/-- The marker token that begins the AP-table header row. -/
def bssidMarker : Str := ("BSSID").data

/-- Embedding of the header test at line 140:
`row[0].strip().upper().startswith("BSSID")`. -/
def isHeaderRow (row : List Str) : Bool :=
  match row with
  | [] => false
  | f :: _ => bssidMarker.isPrefixOf (upper (strip f))

/-- Embedding of the field extraction at lines 149-162 (0-based indices
0, 1, 2, 3, 8, 13 = 1-based row positions 1, 2, 3, 4, 9, 14). -/
def extractRecord (row : List Str) : APRecord :=
  { bssid := upper (strip (row.getD 0 []))
    essid := strip (row.getD 13 [])
    channel := strip (row.getD 3 [])
    power := strip (row.getD 8 [])
    first_seen := strip (row.getD 1 [])
    last_seen := strip (row.getD 2 []) }

/-- Embedding of the row loop of `parse_airodump_csv` (lines 134-162).
A blank row before the header is skipped, a blank row after it ends the
section; a row whose first field starts with the marker (re)enters the
table; rows before the header or with fewer than 14 fields are skipped;
any other row inside the table yields a record. -/
def parseRows : List (List Str) → Bool → List APRecord
  | [], _ => []
  | row :: rest, headerSeen =>
    if row.isEmpty then
      (if headerSeen then [] else parseRows rest headerSeen)
    else if isHeaderRow row then parseRows rest true
    else if !headerSeen then parseRows rest headerSeen
    else if row.length < 14 then parseRows rest headerSeen
    else extractRecord row :: parseRows rest headerSeen

/-- Embedding of `parse_airodump_csv` (lines 124-165): a missing file
(`FileNotFoundError`) yields the empty list, otherwise the rows are scanned
with the header flag initially unset. -/
def parse_airodump_csv (fs : Str → Option (List (List Str))) (path : Str) : List APRecord :=
  match fs path with
  | none => []
  | some rows => parseRows rows false

/-- The spec's description of the in-table row handling, used to state the
claim that header detection is case-insensitive *equality* with the marker:
blank row terminates, short rows are skipped, other rows yield records.
Modelled from the spec, for comparison with `parseRows` only. -/
def parseTableClaim : List (List Str) → List APRecord
  | [] => []
  | row :: rest =>
    if row.isEmpty then []
    else if row.length < 14 then parseTableClaim rest
    else extractRecord row :: parseTableClaim rest

/-- The claim's header test: the first field case-insensitively *equals* the
marker token. Modelled from the spec, for comparison with `isHeaderRow`. -/
def isHeaderRowClaim (row : List Str) : Bool :=
  match row with
  | [] => false
  | f :: _ => upper (strip f) == bssidMarker

/-- The claim's parser: skip all rows until a header row (equality test),
then parse the table. Modelled from the spec, for comparison with
`parse_airodump_csv`. -/
def parseSnapshotClaim : List (List Str) → List APRecord
  | [] => []
  | row :: rest =>
    if isHeaderRowClaim row then parseTableClaim rest else parseSnapshotClaim rest

/-- Alert severities (the strings assigned at lines 293-299). -/
inductive Severity where
  | DRONE_CONFIRMED
  | OUI_MATCH
  | SSID_MATCH
deriving DecidableEq, Repr

/-- De-duplication key (line 302): severity, matched-prefix-or-empty,
broadcast name. -/
abbrev DedupKey := Severity × Str × Str

/-- The `last_emit` dict (line 225), as an association list where the most
recent binding for a key shadows older ones. -/
abbrev DedupState := List (DedupKey × Int)

/-- Model of `last_emit.get(key, 0)` (line 227): the most recent binding for
the key, or 0 when the key has never been emitted. -/
def lastTime (st : DedupState) (key : DedupKey) : Int :=
  match st with
  | [] => 0
  | (k, t) :: rest => if k = key then t else lastTime rest key

/-- Embedding of `should_emit` (lines 226-231): emit iff the time since the
key's last emission reaches the suppression window; on emission the key's
last-emission time is overwritten with the current time; on suppression the
state is returned unchanged. -/
def should_emit (dedupSecs : Int) (key : DedupKey) (nowTs : Int) (lastEmit : DedupState) :
    Bool × DedupState :=
  let prev := lastTime lastEmit key
  if dedupSecs ≤ nowTs - prev then (true, (key, nowTs) :: lastEmit)
  else (false, lastEmit)

/-- SSID rule sets: labelled lists of compiled patterns, each pattern
embedded as its Boolean search function (`rx.search(essid)` truthiness). -/
abbrev Rules := List (Str × List (Str → Bool))

/-- Embedding of the SSID check (lines 287-291): when the broadcast name is
non-empty, every label whose pattern list has a matching pattern is
collected, in rule order. -/
def ssidHits (rules : Rules) (essid : Str) : List Str :=
  if essid.isEmpty then []
  else rules.filterMap fun lr => if lr.2.any (fun rx => rx essid) then some lr.1 else none

/-- Embedding of the OUI check (lines 283-284):
`oui_hit = oui in ouis if oui else False`. -/
def ouiHitOf (ouis : Finset Str) (mac : Str) : Bool :=
  let oui := mac_to_oui mac
  if oui.isEmpty then false else decide (oui ∈ ouis)

/-- Embedding of the severity assignment (lines 293-299): both checks hit →
DRONE_CONFIRMED; only the OUI → OUI_MATCH; only the SSID → SSID_MATCH;
neither → no alert. -/
def severityOf (ouiHit : Bool) (hits : List Str) : Option Severity :=
  if ouiHit && !hits.isEmpty then some Severity.DRONE_CONFIRMED
  else if ouiHit then some Severity.OUI_MATCH
  else if !hits.isEmpty then some Severity.SSID_MATCH
  else none

/-- The alert payload fields computed at lines 305-316 that come from the
detection engine itself (timestamp and snapshot provenance are I/O
formatting and are not modelled): `ssid` is the name or `None`, `oui` the
matched prefix or `None`, `ssid_labels` the matched labels or `None`. -/
structure Alert where
  severity : Severity
  bssid : Str
  channel : Str
  power : Str
  ssid : Option Str
  oui : Option Str
  ssid_labels : Option (List Str)
deriving DecidableEq, Repr

/-- Embedding of one iteration of the per-record loop of `main`
(lines 274-316): skip records with an empty address; run the OUI and SSID
checks; assign a severity; on a severity, consult and update the
de-duplication state and emit the alert when allowed. -/
def processRecord (ouis : Finset Str) (rules : Rules) (dedupSecs : Int) (now : Int)
    (ap : APRecord) (lastEmit : DedupState) : Option Alert × DedupState :=
  if ap.bssid.isEmpty then (none, lastEmit)
  else
    let oui := mac_to_oui ap.bssid
    let ouiHit := ouiHitOf ouis ap.bssid
    let hits := ssidHits rules ap.essid
    match severityOf ouiHit hits with
    | none => (none, lastEmit)
    | some sev =>
      let key : DedupKey := (sev, if ouiHit then oui else [], ap.essid)
      let res := should_emit dedupSecs key now lastEmit
      if res.1 then
        (some { severity := sev, bssid := ap.bssid, channel := ap.channel, power := ap.power,
                ssid := if ap.essid.isEmpty then none else some ap.essid,
                oui := if ouiHit then some oui else none,
                ssid_labels := if hits.isEmpty then none else some hits }, res.2)
      else (none, res.2)

/-- Truthiness of an optional string (Python `if self.channels:` is false
both for `None` and for the empty string). -/
def truthy (o : Option Str) : Bool :=
  match o with
  | none => false
  | some s => !s.isEmpty

/-- Decimal rendering of an integer, as Python `str(int)`. -/
def intStr (i : Int) : Str :=
  if i < 0 then '-' :: Nat.toDigits 10 i.natAbs else Nat.toDigits 10 i.natAbs

/-- State of the supervised capture process, as observable through
`Popen.poll()`: not yet started (`proc is None`), running (`poll() is None`),
or exited. -/
inductive ProcState where
  | running
  | exited
deriving DecidableEq, Repr

/-- Embedding of the `AirodumpRunner` object (lines 170-200): its
configuration fields plus the optional process handle. -/
structure AirodumpRunner where
  iface : Str
  pfx : Str
  band : Option Str
  channels : Option Str
  write_interval : Int
  airodump_bin : Str
  proc : Option ProcState
deriving DecidableEq, Repr

/-- The fixed leading part of the capture command line (line 181). -/
def AirodumpRunner.baseCmd (r : AirodumpRunner) : List Str :=
  [r.airodump_bin, r.iface, ("--output-format").data, ("csv").data, ("--write").data, r.pfx,
    ("--write-interval").data, intStr r.write_interval]

/-- Embedding of the command construction in `AirodumpRunner.start`
(lines 181-186): `--channel` when a channel list is truthy, else `--band`
when a band is truthy, else neither. -/
def AirodumpRunner.startCmd (r : AirodumpRunner) : List Str :=
  let cmd := r.baseCmd
  if truthy r.channels then cmd ++ [("--channel").data, r.channels.getD []]
  else if truthy r.band then cmd ++ [("--band").data, r.band.getD []]
  else cmd

/-- The flag section appended after the base command, for stating the
mutual-exclusion property of `--channel` and `--band`. -/
def AirodumpRunner.channelArgs (r : AirodumpRunner) : List Str :=
  if truthy r.channels then [("--channel").data, r.channels.getD []]
  else if truthy r.band then [("--band").data, r.band.getD []]
  else []

/-- Embedding of `AirodumpRunner.start` spawning (line 188): the command is
built and the process handle becomes live. -/
def AirodumpRunner.start (r : AirodumpRunner) : List Str × AirodumpRunner :=
  (r.startCmd, { r with proc := some ProcState.running })

/-- Embedding of `AirodumpRunner.stop` (lines 191-200): only when a process
exists and `poll()` reports it still running is it terminated (the
terminate / bounded wait / kill sequence is OS behaviour, modelled as the
process reaching the exited state); in every other state the call is a
no-op, and no exception escapes (the body is total). -/
def AirodumpRunner.stop (r : AirodumpRunner) : AirodumpRunner :=
  match r.proc with
  | some ProcState.running => { r with proc := some ProcState.exited }
  | _ => r

/-- An uppercase hexadecimal digit, for stating the claimed (but unchecked)
hex shape of loaded OUIs. -/
def hexUpperDigit (c : Char) : Bool :=
  c.isDigit || ('A' ≤ c && c ≤ 'F')

/-- The shape claimed for every loaded OUI: exactly 3 colon-separated
groups, each of 2 uppercase hexadecimal digits. Modelled from the spec, for
comparison with what `load_ouis` actually guarantees. -/
def claimedOuiShape (m : Str) : Prop :=
  (m.splitOn ':').length = 3 ∧ ∀ p ∈ m.splitOn ':', p.length = 2 ∧ ∀ c ∈ p, hexUpperDigit c = true

/-! Character-level helper lemmas: the ASCII case maps and the whitespace and
lowercase tests, characterised through `Char.toNat`. -/

theorem char_toNat_inj {c d : Char} (h : c.toNat = d.toNat) : c = d := by
  apply Char.eq_of_val_eq
  exact UInt32.ext h

theorem char_eq_iff_toNat {c d : Char} : c = d ↔ c.toNat = d.toNat :=
  ⟨fun h => congrArg Char.toNat h, char_toNat_inj⟩

theorem uint32_le_iff_toNat_le (a b : UInt32) : a ≤ b ↔ a.toNat ≤ b.toNat := by
  rw [UInt32.le_def, BitVec.le_def]
  exact Iff.rfl

theorem toNat_ofNat_valid {n : Nat} (h : n.isValidChar) : (Char.ofNat n).toNat = n := by
  simp only [Char.ofNat, dif_pos h]
  rfl

theorem toNat_toUpper (c : Char) :
    (Char.toUpper c).toNat = if c.toNat ≥ 97 ∧ c.toNat ≤ 122 then c.toNat - 32 else c.toNat := by
  simp only [Char.toUpper]
  split
  · rename_i h
    exact toNat_ofNat_valid (Or.inl (by omega))
  · rfl

theorem toNat_toLower (c : Char) :
    (Char.toLower c).toNat = if c.toNat ≥ 65 ∧ c.toNat ≤ 90 then c.toNat + 32 else c.toNat := by
  simp only [Char.toLower]
  split
  · rename_i h
    exact toNat_ofNat_valid (Or.inl (by omega))
  · rfl

theorem isLower_iff_toNat (c : Char) : c.isLower = true ↔ 97 ≤ c.toNat ∧ c.toNat ≤ 122 := by
  simp only [Char.isLower, Bool.and_eq_true, decide_eq_true_eq, ge_iff_le]
  rw [uint32_le_iff_toNat_le, uint32_le_iff_toNat_le]
  constructor
  · rintro ⟨h1, h2⟩
    exact ⟨by simpa using h1, by simpa using h2⟩
  · rintro ⟨h1, h2⟩
    exact ⟨by simpa using h1, by simpa using h2⟩

theorem isWhitespace_iff_toNat (c : Char) :
    c.isWhitespace = true ↔ (c.toNat = 32 ∨ c.toNat = 9 ∨ c.toNat = 13 ∨ c.toNat = 10) := by
  simp only [Char.isWhitespace, Bool.or_eq_true, decide_eq_true_eq]
  constructor
  · rintro (((h | h) | h) | h) <;> subst h <;> decide
  · rintro (h | h | h | h)
    · exact Or.inl (Or.inl (Or.inl (char_toNat_inj (by rw [h]; rfl))))
    · exact Or.inl (Or.inl (Or.inr (char_toNat_inj (by rw [h]; rfl))))
    · exact Or.inl (Or.inr (char_toNat_inj (by rw [h]; rfl)))
    · exact Or.inr (char_toNat_inj (by rw [h]; rfl))

theorem toUpper_toLower (c : Char) : Char.toUpper (Char.toLower c) = Char.toUpper c := by
  apply char_toNat_inj
  simp only [toNat_toUpper, toNat_toLower]
  split_ifs <;> omega

theorem toUpper_toUpper (c : Char) : Char.toUpper (Char.toUpper c) = Char.toUpper c := by
  apply char_toNat_inj
  simp only [toNat_toUpper]
  split_ifs <;> omega

theorem isLower_toUpper (c : Char) : (Char.toUpper c).isLower = false := by
  rw [Bool.eq_false_iff]
  intro h
  rw [isLower_iff_toNat, toNat_toUpper] at h
  split_ifs at h <;> omega

theorem isWhitespace_toUpper (c : Char) : (Char.toUpper c).isWhitespace = c.isWhitespace := by
  by_cases h : c.isWhitespace = true
  · have hn := (isWhitespace_iff_toNat c).mp h
    have heq : Char.toUpper c = c := by
      apply char_toNat_inj
      rw [toNat_toUpper]
      split_ifs <;> omega
    rw [heq]
  · rw [Bool.not_eq_true] at h
    rw [h, Bool.eq_false_iff]
    intro hw
    have hn := (isWhitespace_iff_toNat _).mp hw
    rw [toNat_toUpper] at hn
    have hc : ¬ (c.toNat = 32 ∨ c.toNat = 9 ∨ c.toNat = 13 ∨ c.toNat = 10) := by
      intro hx
      have hy := (isWhitespace_iff_toNat c).mpr hx
      rw [h] at hy
      exact Bool.false_ne_true hy
    split_ifs at hn <;> omega

theorem isWhitespace_toLower (c : Char) : (Char.toLower c).isWhitespace = c.isWhitespace := by
  by_cases h : c.isWhitespace = true
  · have hn := (isWhitespace_iff_toNat c).mp h
    have heq : Char.toLower c = c := by
      apply char_toNat_inj
      rw [toNat_toLower]
      split_ifs <;> omega
    rw [heq]
  · rw [Bool.not_eq_true] at h
    rw [h, Bool.eq_false_iff]
    intro hw
    have hn := (isWhitespace_iff_toNat _).mp hw
    rw [toNat_toLower] at hn
    have hc : ¬ (c.toNat = 32 ∨ c.toNat = 9 ∨ c.toNat = 13 ∨ c.toNat = 10) := by
      intro hx
      have hy := (isWhitespace_iff_toNat c).mpr hx
      rw [h] at hy
      exact Bool.false_ne_true hy
    split_ifs at hn <;> omega

theorem isWhitespace_colonToDashChar (c : Char) :
    (colonToDashChar c).isWhitespace = c.isWhitespace := by
  by_cases h : c = ':'
  · subst h
    decide
  · simp [colonToDashChar, h]

theorem dashToColonChar_toUpper_colonToDash (c : Char) :
    dashToColonChar (Char.toUpper (colonToDashChar c)) = dashToColonChar (Char.toUpper c) := by
  by_cases h : c = ':'
  · subst h
    decide
  · simp [colonToDashChar, h]

/-! List-level helper lemmas. -/

theorem splitOnP_pieces {α : Type} (q : α → Bool) :
    ∀ (l : List α), ∀ p ∈ l.splitOnP q, ∀ c ∈ p, q c = false := by
  intro l
  induction l with
  | nil =>
    intro p hp c hc
    simp only [List.splitOnP_nil, List.mem_singleton] at hp
    subst hp
    cases hc
  | cons x xs ih =>
    intro p hp c hc
    rw [List.splitOnP_cons] at hp
    by_cases hq : q x
    · rw [if_pos hq] at hp
      rcases List.mem_cons.mp hp with h | h
      · subst h; cases hc
      · exact ih p h c hc
    · rw [if_neg hq] at hp
      rcases hh : xs.splitOnP q with _ | ⟨hd, tl⟩
      · exact absurd hh (List.splitOnP_ne_nil q xs)
      · rw [hh] at hp
        simp only [List.modifyHead] at hp
        rcases List.mem_cons.mp hp with h | h
        · subst h
          rcases List.mem_cons.mp hc with h | h
          · subst h
            exact Bool.not_eq_true _ |>.mp hq
          · exact ih hd (hh ▸ List.mem_cons_self hd tl) c h
        · exact ih p (hh ▸ List.mem_cons_of_mem hd h) c hc

theorem splitOn_pieces {α : Type} [DecidableEq α] (a : α) (l : List α) :
    ∀ p ∈ l.splitOn a, a ∉ p := by
  intro p hp hmem
  have h := splitOnP_pieces (· == a) l p hp a hmem
  simp at h

theorem dropWhile_map_of_pres {α : Type} (f : α → α) (q : α → Bool)
    (hf : ∀ c, q (f c) = q c) (l : List α) :
    (l.map f).dropWhile q = (l.dropWhile q).map f := by
  induction l with
  | nil => rfl
  | cons x xs ih =>
    simp only [List.map_cons, List.dropWhile_cons, hf x]
    by_cases h : q x
    · rw [if_pos h, if_pos h]
      exact ih
    · rw [if_neg h, if_neg h, List.map_cons]

theorem strip_map_of_pres (f : Char → Char)
    (hf : ∀ c, (f c).isWhitespace = c.isWhitespace) (l : Str) :
    strip (l.map f) = (strip l).map f := by
  simp only [strip]
  rw [dropWhile_map_of_pres f _ hf, ← List.map_reverse, dropWhile_map_of_pres f _ hf,
    ← List.map_reverse]

theorem normalizeMac_toLower (mac : Str) :
    normalizeMac (mac.map Char.toLower) = normalizeMac mac := by
  simp only [normalizeMac, upper, dashToColon]
  rw [strip_map_of_pres Char.toLower isWhitespace_toLower, List.map_map, List.map_map,
    List.map_map]
  congr 1
  funext c
  simp [Function.comp, toUpper_toLower]

theorem normalizeMac_toUpper (mac : Str) :
    normalizeMac (mac.map Char.toUpper) = normalizeMac mac := by
  simp only [normalizeMac, upper, dashToColon]
  rw [strip_map_of_pres Char.toUpper isWhitespace_toUpper, List.map_map, List.map_map,
    List.map_map]
  congr 1
  funext c
  simp [Function.comp, toUpper_toUpper]

theorem normalizeMac_colonToDash (mac : Str) :
    normalizeMac (colonToDash mac) = normalizeMac mac := by
  simp only [normalizeMac, upper, dashToColon, colonToDash]
  rw [strip_map_of_pres colonToDashChar isWhitespace_colonToDashChar, List.map_map,
    List.map_map, List.map_map]
  congr 1
  funext c
  simp [Function.comp, dashToColonChar_toUpper_colonToDash]

theorem mac_to_oui_congr {a b : Str} (h : normalizeMac a = normalizeMac b) :
    mac_to_oui a = mac_to_oui b := by
  simp only [mac_to_oui, h]

/-- Every character of a normalised string (`dashToColon (upper s)`) is
non-lowercase: it is either a colon or the image of `Char.toUpper`. -/
theorem isLower_mem_dashToColon_upper (s : Str) :
    ∀ c ∈ dashToColon (upper s), c.isLower = false := by
  intro c hc
  simp only [dashToColon, upper, List.map_map, List.mem_map] at hc
  obtain ⟨d, _, hd⟩ := hc
  subst hd
  simp only [Function.comp, dashToColonChar]
  split
  · decide
  · exact isLower_toUpper d

/-! Claim theorems. -/

/-- C1: `should_emit` emits iff the current time minus the key's last
recorded emission time (0 when never emitted) is at least the suppression
window; on emission the key's last-emission time becomes the current time
(the state gains the binding), on suppression the state is unchanged; with
window 0 any sighting at a time not before the last emission emits; and
after an emission at time `t`, a repeat at time `t'` emits iff the window
has elapsed (so repeats within the window are suppressed and become
observable again afterwards). -/
theorem C1_should_emit_dedup (w : Int) (k : DedupKey) (t : Int) (st : DedupState) :
    ((should_emit w k t st).1 = true ↔ w ≤ t - lastTime st k)
    ∧ ((should_emit w k t st).1 = true →
        (should_emit w k t st).2 = (k, t) :: st ∧ lastTime (should_emit w k t st).2 k = t)
    ∧ ((should_emit w k t st).1 = false → (should_emit w k t st).2 = st)
    ∧ (lastTime st k ≤ t → (should_emit 0 k t st).1 = true)
    ∧ (∀ st' t', should_emit w k t st = (true, st') →
        ((should_emit w k t' st').1 = true ↔ w ≤ t' - t)) := by
  refine ⟨?_, ?_, ?_, ?_, ?_⟩
  · by_cases h : w ≤ t - lastTime st k <;> simp [should_emit, h]
  · intro he
    by_cases h : w ≤ t - lastTime st k
    · simp [should_emit, h, lastTime]
    · simp [should_emit, h] at he
  · intro he
    by_cases h : w ≤ t - lastTime st k
    · simp [should_emit, h] at he
    · simp [should_emit, h]
  · intro h
    have h0 : (0 : Int) ≤ t - lastTime st k := by omega
    simp [should_emit, h0]
  · intro st' t' he
    by_cases h : w ≤ t - lastTime st k
    · simp only [should_emit, if_pos h] at he
      cases he
      by_cases h2 : w ≤ t' - t <;>
        simp [should_emit, lastTime, h2]
    · simp [should_emit, h] at he

/-- C1 witness: with the default window 120 and empty state, a sighting at
time 200 emits and records the key at 200. -/
theorem C1_should_emit_dedup_witness :
    (should_emit 120 (Severity.OUI_MATCH, [], []) 200 []).1 = true
    ∧ (should_emit 120 (Severity.OUI_MATCH, [], []) 200 []).2
        = [((Severity.OUI_MATCH, [], []), 200)] := by
  have h := C1_should_emit_dedup 120 (Severity.OUI_MATCH, [], []) 200 []
  have h1 : (should_emit 120 (Severity.OUI_MATCH, [], []) 200 []).1 = true :=
    h.1.mpr (by decide)
  exact ⟨h1, (h.2.1 h1).1⟩

/-- C7: for every path that does not name an existing file,
`parse_airodump_csv` returns the empty list rather than raising. -/
theorem C7_missing_file (fs : Str → Option (List (List Str))) (p : Str) (h : fs p = none) :
    parse_airodump_csv fs p = [] := by
  simp [parse_airodump_csv, h]

/-- C7 witness: on the empty filesystem, parsing any path yields `[]`. -/
theorem C7_missing_file_witness :
    parse_airodump_csv (fun _ => none) [] = [] :=
  C7_missing_file (fun _ => none) [] rfl

/-- C8: the capture command is the base command followed by a flag section
that is exactly the `--channel` pair when a channel list is configured
(truthy), exactly the `--band` pair when only a band is configured, and
empty otherwise — so no configuration passes both flags. -/
theorem C8_channel_band_exclusive (r : AirodumpRunner) :
    r.startCmd = r.baseCmd ++ r.channelArgs
    ∧ (truthy r.channels = true →
        r.channelArgs = [("--channel").data, r.channels.getD []])
    ∧ (truthy r.channels = false → truthy r.band = true →
        r.channelArgs = [("--band").data, r.band.getD []])
    ∧ (truthy r.channels = false → truthy r.band = false → r.channelArgs = []) := by
  refine ⟨?_, fun h => ?_, fun h1 h2 => ?_, fun h1 h2 => ?_⟩
  · by_cases hc : truthy r.channels <;> by_cases hb : truthy r.band <;>
      simp [AirodumpRunner.startCmd, AirodumpRunner.channelArgs, hc, hb]
  · simp [AirodumpRunner.channelArgs, h]
  · simp [AirodumpRunner.channelArgs, h1, h2]
  · simp [AirodumpRunner.channelArgs, h1, h2]

/-- C8 witness: with both a channel list and a band configured, only the
`--channel` pair is appended. -/
theorem C8_channel_band_exclusive_witness :
    (AirodumpRunner.mk (("wlan0mon").data) (("scan").data) (some (("bg").data))
        (some (("1,6,11").data)) 2 (("airodump-ng").data) none).channelArgs
      = [("--channel").data, ("1,6,11").data] :=
  (C8_channel_band_exclusive _).2.1 (by decide)

/-- C9: `stop` is a no-op (no state change, no error) when the process was
never started or has already exited, and calling it twice equals calling it
once, so any number of calls is safe. -/
theorem C9_stop_safe (r : AirodumpRunner) :
    (r.proc = none → r.stop = r)
    ∧ (r.proc = some ProcState.exited → r.stop = r)
    ∧ r.stop.stop = r.stop := by
  refine ⟨fun h => ?_, fun h => ?_, ?_⟩
  · simp [AirodumpRunner.stop, h]
  · simp [AirodumpRunner.stop, h]
  · rcases hr : r.proc with _ | st
    · simp [AirodumpRunner.stop, hr]
    · cases st <;> simp [AirodumpRunner.stop, hr]

/-- C9 witness: stopping a never-started runner changes nothing. -/
theorem C9_stop_safe_witness :
    (AirodumpRunner.mk [] [] none none 2 [] none).stop
      = AirodumpRunner.mk [] [] none none 2 [] none :=
  (C9_stop_safe _).1 rfl

/-- C2: for a record with a non-empty hardware address, the severity is
DRONE_CONFIRMED when both the vendor-prefix lookup hits and a name pattern
matches, OUI_MATCH when only the prefix hits, SSID_MATCH when only a name
pattern matches, and with neither no alert is produced (the engine leaves
the state unchanged and emits nothing); every emitted alert carries exactly
this assigned severity, so a record matching both rule sets never yields
OUI_MATCH or SSID_MATCH. -/
theorem C2_severity_assignment (ouis : Finset Str) (rules : Rules) (ap : APRecord)
    (hb : ap.bssid ≠ []) :
    (ouiHitOf ouis ap.bssid = true → ssidHits rules ap.essid ≠ [] →
      severityOf (ouiHitOf ouis ap.bssid) (ssidHits rules ap.essid)
        = some Severity.DRONE_CONFIRMED)
    ∧ (ouiHitOf ouis ap.bssid = true → ssidHits rules ap.essid = [] →
      severityOf (ouiHitOf ouis ap.bssid) (ssidHits rules ap.essid) = some Severity.OUI_MATCH)
    ∧ (ouiHitOf ouis ap.bssid = false → ssidHits rules ap.essid ≠ [] →
      severityOf (ouiHitOf ouis ap.bssid) (ssidHits rules ap.essid) = some Severity.SSID_MATCH)
    ∧ (ouiHitOf ouis ap.bssid = false → ssidHits rules ap.essid = [] →
      severityOf (ouiHitOf ouis ap.bssid) (ssidHits rules ap.essid) = none
      ∧ ∀ w now st, processRecord ouis rules w now ap st = (none, st))
    ∧ (∀ w now st a st2, processRecord ouis rules w now ap st = (some a, st2) →
      some a.severity = severityOf (ouiHitOf ouis ap.bssid) (ssidHits rules ap.essid)) := by
  have hbe : ap.bssid.isEmpty = false := by
    cases hB : ap.bssid
    · exact absurd hB hb
    · rfl
  refine ⟨fun h1 h2 => ?_, fun h1 h2 => ?_, fun h1 h2 => ?_, fun h1 h2 => ?_, ?_⟩
  · rcases hh : ssidHits rules ap.essid with _ | ⟨x, xs⟩
    · exact absurd hh h2
    · simp [severityOf, h1, hh]
  · simp [severityOf, h1, h2]
  · rcases hh : ssidHits rules ap.essid with _ | ⟨x, xs⟩
    · exact absurd hh h2
    · simp [severityOf, h1, hh]
  · have hs : severityOf (ouiHitOf ouis ap.bssid) (ssidHits rules ap.essid) = none := by
      simp [severityOf, h1, h2]
    refine ⟨hs, fun w now st => ?_⟩
    simp only [processRecord, hbe, Bool.false_eq_true, if_false, hs]
  · intro w now st a st2 hp
    simp only [processRecord, hbe, Bool.false_eq_true, if_false] at hp
    rcases hs : severityOf (ouiHitOf ouis ap.bssid) (ssidHits rules ap.essid) with _ | sev
    · rw [hs] at hp
      simp at hp
    · rw [hs] at hp
      dsimp only at hp
      rcases hse : should_emit w (sev,
          if ouiHitOf ouis ap.bssid then mac_to_oui ap.bssid else [], ap.essid) now st
        with ⟨emitted, st3⟩
      rw [hse] at hp
      cases emitted
      · simp at hp
      · simp at hp
        rw [← hp.1]

/-- C2 witness: an address whose prefix is in the vendor set together with a
name matched by a pattern is classified DRONE_CONFIRMED. -/
theorem C2_severity_assignment_witness :
    severityOf (ouiHitOf {("AA:BB:CC").data} (("AA:BB:CC:11:22:33").data))
        (ssidHits [(("dji").data, [fun s => ("DJI").data.isPrefixOf s])]
          (("DJI-Mavic-1234").data))
      = some Severity.DRONE_CONFIRMED :=
  (C2_severity_assignment {("AA:BB:CC").data}
      [(("dji").data, [fun s => ("DJI").data.isPrefixOf s])]
      (APRecord.mk (("AA:BB:CC:11:22:33").data) (("DJI-Mavic-1234").data) [] [] [] [])
      (by decide)).1
    (by decide) (by decide)

/-- C6: the emit-or-suppress decision and the resulting de-duplication state
are independent of channel and power: two records agreeing on address and
broadcast name but differing arbitrarily in channel and power produce the
same decision and the same new state; in particular a repeat sighting with a
different channel/power within the window after an emission is suppressed. -/
theorem C6_channel_power_independent (ouis : Finset Str) (rules : Rules) (w now : Int)
    (st : DedupState) (b e ch1 pw1 ch2 pw2 f l : Str) :
    ((processRecord ouis rules w now (APRecord.mk b e ch1 pw1 f l) st).1.isSome
      = (processRecord ouis rules w now (APRecord.mk b e ch2 pw2 f l) st).1.isSome)
    ∧ ((processRecord ouis rules w now (APRecord.mk b e ch1 pw1 f l) st).2
      = (processRecord ouis rules w now (APRecord.mk b e ch2 pw2 f l) st).2)
    ∧ (∀ a st2 now2,
        processRecord ouis rules w now (APRecord.mk b e ch1 pw1 f l) st = (some a, st2) →
        now2 - now < w →
        (processRecord ouis rules w now2 (APRecord.mk b e ch2 pw2 f l) st2).1 = none) := by
  simp only [processRecord]
  by_cases hb : b.isEmpty
  · simp [hb]
  · simp only [hb, Bool.false_eq_true, if_false]
    rcases hs : severityOf (ouiHitOf ouis b) (ssidHits rules e) with _ | sev
    · simp
    · dsimp only
      rcases hse : should_emit w (sev, if ouiHitOf ouis b then mac_to_oui b else [], e) now st
        with ⟨emitted, st3⟩
      refine ⟨?_, ?_, ?_⟩
      · cases emitted <;> simp
      · cases emitted <;> simp
      · intro a st2 now2 hp hlt
        cases emitted
        · simp at hp
        · simp at hp
          by_cases hc : w ≤ now - lastTime st (sev, if ouiHitOf ouis b then mac_to_oui b else [], e)
          · simp only [should_emit, if_pos hc] at hse
            have hst3 : st3 = ((sev, if ouiHitOf ouis b then mac_to_oui b else [], e), now) :: st := by
              cases hse
              rfl
            subst hst3
            rw [← hp.2]
            have hnle : ¬ (w ≤ now2 - now) := by omega
            simp [should_emit, lastTime, hnle]
          · simp [should_emit, hc] at hse

/-- C6 witness: after an OUI_MATCH emission at time 200, a sighting of the
same address and name at time 250 (within the 120-unit window) on a
different channel and power is suppressed. -/
theorem C6_channel_power_independent_witness :
    (processRecord {("AA:BB:CC").data} [] 120 250
        (APRecord.mk (("AA:BB:CC:11:22:33").data) [] (("11").data) (("-70").data) [] [])
        [((Severity.OUI_MATCH, ("AA:BB:CC").data, []), 200)]).1 = none :=
  (C6_channel_power_independent {("AA:BB:CC").data} [] 120 200 []
      (("AA:BB:CC:11:22:33").data) [] (("6").data) (("-40").data) (("11").data)
      (("-70").data) [] []).2.2
    (Alert.mk Severity.OUI_MATCH (("AA:BB:CC:11:22:33").data) (("6").data) (("-40").data)
      none (some (("AA:BB:CC").data)) none)
    [((Severity.OUI_MATCH, ("AA:BB:CC").data, []), 200)] 250 (by decide) (by decide)

/-- C10: a non-empty hardware address that does not normalise to the
canonical 17-character, 5-colon form yields an empty prefix from
`mac_to_oui` and no vendor hit, the record is evaluated exactly as it would
be against an empty vendor set (so the name patterns still apply), every
alert it can produce has severity SSID_MATCH carrying the matched labels,
and when a pattern matches and the window allows, such an alert is indeed
emitted — never OUI_MATCH or DRONE_CONFIRMED, and no error path exists. -/
theorem C10_malformed_mac (ouis : Finset Str) (rules : Rules) (w now : Int) (st : DedupState)
    (ap : APRecord) (hb : ap.bssid ≠ [])
    (hnc : ¬ ((normalizeMac ap.bssid).length = 17 ∧ (normalizeMac ap.bssid).count ':' = 5)) :
    mac_to_oui ap.bssid = []
    ∧ ouiHitOf ouis ap.bssid = false
    ∧ processRecord ouis rules w now ap st = processRecord ∅ rules w now ap st
    ∧ (∀ a st2, processRecord ouis rules w now ap st = (some a, st2) →
        a.severity = Severity.SSID_MATCH ∧ a.ssid_labels = some (ssidHits rules ap.essid))
    ∧ (ssidHits rules ap.essid ≠ [] →
        w ≤ now - lastTime st (Severity.SSID_MATCH, [], ap.essid) →
        (processRecord ouis rules w now ap st).1.isSome = true) := by
  have hbe : ap.bssid.isEmpty = false := by
    cases hB : ap.bssid
    · exact absurd hB hb
    · rfl
  have houi : mac_to_oui ap.bssid = [] := by
    simp only [mac_to_oui]
    rw [if_neg hnc]
  have hhit : ouiHitOf ouis ap.bssid = false := by
    simp [ouiHitOf, houi]
  have hhit0 : ouiHitOf ∅ ap.bssid = false := by
    simp [ouiHitOf, houi]
  refine ⟨houi, hhit, ?_, ?_, ?_⟩
  · simp only [processRecord, hhit, hhit0]
  · intro a st2 hp
    simp only [processRecord, hbe, Bool.false_eq_true, if_false, hhit] at hp
    rcases hh : ssidHits rules ap.essid with _ | ⟨x, xs⟩
    · rw [hh] at hp
      simp [severityOf] at hp
    · rw [hh] at hp
      simp only [severityOf, Bool.false_and, Bool.false_eq_true, if_false,
        List.isEmpty_cons, Bool.not_false, if_true] at hp
      rcases hse : should_emit w (Severity.SSID_MATCH, [], ap.essid) now st
        with ⟨emitted, st3⟩
      rw [hse] at hp
      cases emitted
      · simp at hp
      · simp at hp
        constructor
        · rw [← hp.1]
        · rw [← hp.1]
  · intro hne hc
    have hs : severityOf false (ssidHits rules ap.essid) = some Severity.SSID_MATCH := by
      rcases hh : ssidHits rules ap.essid with _ | ⟨x, xs⟩
      · exact absurd hh hne
      · simp [severityOf]
    simp only [processRecord, hbe, Bool.false_eq_true, if_false, hhit, hs]
    simp [should_emit, hc]

/-- C10 witness: the non-canonical address `not-a-mac` with a matching name
still produces an (SSID_MATCH) emission. -/
theorem C10_malformed_mac_witness :
    (processRecord ∅ [(("dji").data, [fun s => ("DJI").data.isPrefixOf s])] 120 200
        (APRecord.mk (("not-a-mac").data) (("DJI-Mavic").data) [] [] [] []) []).1.isSome
      = true :=
  (C10_malformed_mac ∅ [(("dji").data, [fun s => ("DJI").data.isPrefixOf s])] 120 200 []
      (APRecord.mk (("not-a-mac").data) (("DJI-Mavic").data) [] [] [] [])
      (by decide) (by decide)).2.2.2.2 (by decide) (by decide)

/-- Shape invariant actually enforced by one source file of `load_ouis`:
every member splits into exactly 3 colon-separated groups of length 2 and
contains no lowercase letter. -/
theorem load_ouis_file_shape (file : Option (List (Option Str))) (m : Str)
    (hm : m ∈ load_ouis_file file) :
    (m.splitOn ':').length = 3
    ∧ (∀ p ∈ m.splitOn ':', p.length = 2)
    ∧ (∀ c ∈ m, c.isLower = false) := by
  rcases file with _ | rows
  · simp [load_ouis_file] at hm
  · simp only [load_ouis_file, List.mem_toFinset] at hm
    obtain ⟨cell, hcell, hrow⟩ := List.mem_filterMap.mp hm
    simp only [ouiOfRow] at hrow
    by_cases h : ((dashToColon (upper (strip (cell.getD [])))).splitOn ':').length = 3
        ∧ ∀ x ∈ (dashToColon (upper (strip (cell.getD [])))).splitOn ':', x.length = 2
    · rw [if_pos h] at hrow
      have hmeq : [':'].intercalate ((dashToColon (upper (strip (cell.getD [])))).splitOn ':')
          = m := Option.some.inj hrow
      have hoeq : [':'].intercalate ((dashToColon (upper (strip (cell.getD [])))).splitOn ':')
          = dashToColon (upper (strip (cell.getD []))) :=
        List.intercalate_splitOn _ ':'
      rw [hoeq] at hmeq
      subst hmeq
      exact ⟨h.1, h.2, isLower_mem_dashToColon_upper _⟩
    · rw [if_neg h] at hrow
      cases hrow

/-- C3 (amended): every member of the set returned by `load_ouis` consists
of exactly 3 colon-separated two-character groups and contains no lowercase
(ASCII) letter; the hexadecimal content of the groups is not part of the
invariant. -/
theorem C3_loaded_oui_shape (drones modules : Option (List (Option Str))) (inc : Bool)
    (m : Str) (hm : m ∈ load_ouis drones modules inc) :
    (m.splitOn ':').length = 3
    ∧ (∀ p ∈ m.splitOn ':', p.length = 2)
    ∧ (∀ c ∈ m, c.isLower = false) := by
  rcases Finset.mem_union.mp hm with h | h
  · exact load_ouis_file_shape drones m h
  · by_cases hinc : inc = true
    · rw [hinc, if_pos rfl] at h
      exact load_ouis_file_shape modules m h
    · rw [Bool.not_eq_true] at hinc
      rw [hinc] at h
      simp at h

/-- C3 counterexample: the row `GG:GG:GG` passes the shape check of
`load_ouis` and becomes a member, yet its groups are not hexadecimal, so the
claimed "3 two-character hexadecimal groups" invariant is false. -/
theorem C3_loaded_oui_shape_counterexample :
    (("GG:GG:GG").data ∈ load_ouis (some [some (("GG:GG:GG").data)]) none false)
    ∧ ¬ claimedOuiShape (("GG:GG:GG").data) := by
  constructor
  · decide
  · simp only [claimedOuiShape]
    decide

/-- C3 witness: a lowercase, dash-separated row is loaded as the canonical
member `AA:BB:CC`, which splits into 3 groups. -/
theorem C3_loaded_oui_shape_witness :
    ((("AA:BB:CC").data).splitOn ':').length = 3 :=
  (C3_loaded_oui_shape (some [some (("aa-bb-cc").data)]) none false (("AA:BB:CC").data)
    (by decide)).1

/-- A snapshot whose first row's first field merely *starts with* the marker
and whose second row is a full 14-column data row: the code accepts the
first row as a header, the claim's equality test never would. -/
def c4Rows : List (List Str) :=
  [[("BSSIDX").data],
   [("AA:BB:CC:11:22:33").data, ("2026-01-01 00:00:00").data, ("2026-01-01 00:00:10").data,
    ("6").data, ("54").data, ("WPA2").data, ("CCMP").data, ("PSK").data, ("-40").data,
    ("10").data, ("0").data, ("0.0.0.0").data, ("3").data, ("DJI").data]]

/-- C4 (amended): parsing skips every row until one whose first field,
stripped and uppercased, *starts with* the marker `BSSID` (and yields
nothing when no such row exists); after the header a blank row ends the
section immediately; short rows (< 14 fields) are skipped; any other
non-marker row yields a record whose address, first-seen, last-seen,
channel, power and name come from row positions 1, 2, 3, 4, 9 and 14. -/
theorem C4_parse_snapshot (fs : Str → Option (List (List Str))) (p : Str)
    (rows : List (List Str)) (hfs : fs p = some rows) :
    parse_airodump_csv fs p = parseRows rows false
    ∧ ((∀ r ∈ rows, isHeaderRow r = false) → parse_airodump_csv fs p = [])
    ∧ (∀ r rest, isHeaderRow r = false → parseRows (r :: rest) false = parseRows rest false)
    ∧ (∀ r rest, isHeaderRow r = true → parseRows (r :: rest) false = parseRows rest true)
    ∧ (∀ rest, parseRows ([] :: rest) true = [])
    ∧ (∀ r rest, r ≠ [] → r.length < 14 → parseRows (r :: rest) true = parseRows rest true)
    ∧ (∀ r rest, 14 ≤ r.length → isHeaderRow r = false →
        parseRows (r :: rest) true = extractRecord r :: parseRows rest true)
    ∧ (∀ r, (extractRecord r).bssid = upper (strip (r.getD 0 []))
        ∧ (extractRecord r).first_seen = strip (r.getD 1 [])
        ∧ (extractRecord r).last_seen = strip (r.getD 2 [])
        ∧ (extractRecord r).channel = strip (r.getD 3 [])
        ∧ (extractRecord r).power = strip (r.getD 8 [])
        ∧ (extractRecord r).essid = strip (r.getD 13 [])) := by
  have hskip : ∀ r rest, isHeaderRow r = false →
      parseRows (r :: rest) false = parseRows rest false := by
    intro r rest hr
    rcases r with _ | ⟨x, xs⟩
    · simp [parseRows]
    · simp [parseRows, hr]
  refine ⟨?_, ?_, hskip, ?_, ?_, ?_, ?_, ?_⟩
  · simp [parse_airodump_csv, hfs]
  · intro hall
    simp only [parse_airodump_csv, hfs]
    clear hfs
    induction rows with
    | nil => rfl
    | cons r rest ih =>
      rw [hskip r rest (hall r (List.mem_cons_self r rest))]
      exact ih (fun x hx => hall x (List.mem_cons_of_mem r hx))
  · intro r rest hr
    rcases r with _ | ⟨x, xs⟩
    · simp [isHeaderRow] at hr
    · have hne : (x :: xs).isEmpty = false := rfl
      simp [parseRows, hne, hr]
  · intro rest
    simp [parseRows]
  · intro r rest hne hlen
    rcases r with _ | ⟨x, xs⟩
    · exact absurd rfl hne
    · have hlen2 : xs.length < 13 := by
        simp only [List.length_cons] at hlen
        omega
      by_cases hr : isHeaderRow (x :: xs)
      · simp [parseRows, hr]
      · simp [parseRows, hr, hlen2]
  · intro r rest hlen hr
    rcases r with _ | ⟨x, xs⟩
    · simp at hlen
    · have hnl2 : ¬ (xs.length < 13) := by
        simp only [List.length_cons] at hlen
        omega
      simp [parseRows, hr, hnl2]
      omega
  · intro r
    exact ⟨rfl, rfl, rfl, rfl, rfl, rfl⟩

/-- C4 counterexample: on `c4Rows` the code parses one record (the
`startswith` test accepts `BSSIDX` as a header), while a parser following
the claim's case-insensitive-equality header rule parses nothing. -/
theorem C4_parse_snapshot_counterexample :
    (parse_airodump_csv (fun _ => some c4Rows) []).length = 1
    ∧ parseSnapshotClaim c4Rows = [] := by
  constructor
  · decide
  · decide

/-- C4 witness: with a genuine `BSSID` header the data row of `c4Rows`-style
input is parsed, and a blank row after the header yields nothing. -/
theorem C4_parse_snapshot_witness :
    parse_airodump_csv (fun _ => some [[("BSSID").data], [("x").data]]) []
      = parseRows [[("BSSID").data], [("x").data]] false
    ∧ parseRows ([] :: [[("x").data]]) true = [] :=
  ⟨(C4_parse_snapshot (fun _ => some [[("BSSID").data], [("x").data]]) []
      [[("BSSID").data], [("x").data]] rfl).1,
   (C4_parse_snapshot (fun _ => some [[("BSSID").data], [("x").data]]) []
      [[("BSSID").data], [("x").data]] rfl).2.2.2.2.1 [[("x").data]]⟩

/-- C5: prefix extraction is deterministic under letter-case and
separator-style variation of the input (lower-casing, upper-casing or
rewriting colons as dashes leaves the result unchanged), and on every
address whose normalised form is a canonical six-group hardware address the
result is the first three groups joined by colons — 8 characters,
colon-separated, containing no lowercase letter. -/
theorem C5_mac_to_oui_canonical (mac : Str) :
    mac_to_oui (mac.map Char.toLower) = mac_to_oui mac
    ∧ mac_to_oui (mac.map Char.toUpper) = mac_to_oui mac
    ∧ mac_to_oui (colonToDash mac) = mac_to_oui mac
    ∧ (∀ p1 p2 p3 p4 p5 p6,
        (normalizeMac mac).splitOn ':' = [p1, p2, p3, p4, p5, p6] →
        p1.length = 2 → p2.length = 2 → p3.length = 2 → p4.length = 2 → p5.length = 2 →
        p6.length = 2 →
        mac_to_oui mac = p1 ++ ':' :: (p2 ++ ':' :: p3)
        ∧ (mac_to_oui mac).length = 8
        ∧ (':' ∉ p1 ∧ ':' ∉ p2 ∧ ':' ∉ p3)
        ∧ ∀ c ∈ mac_to_oui mac, c.isLower = false) := by
  refine ⟨mac_to_oui_congr (normalizeMac_toLower mac),
    mac_to_oui_congr (normalizeMac_toUpper mac),
    mac_to_oui_congr (normalizeMac_colonToDash mac), ?_⟩
  intro p1 p2 p3 p4 p5 p6 hsplit l1 l2 l3 l4 l5 l6
  have hpieces := splitOn_pieces ':' (normalizeMac mac)
  rw [hsplit] at hpieces
  have h1 : ':' ∉ p1 := hpieces p1 (by simp)
  have h2 : ':' ∉ p2 := hpieces p2 (by simp)
  have h3 : ':' ∉ p3 := hpieces p3 (by simp)
  have h4 : ':' ∉ p4 := hpieces p4 (by simp)
  have h5 : ':' ∉ p5 := hpieces p5 (by simp)
  have h6 : ':' ∉ p6 := hpieces p6 (by simp)
  have hm : normalizeMac mac
      = p1 ++ ':' :: (p2 ++ ':' :: (p3 ++ ':' :: (p4 ++ ':' :: (p5 ++ ':' :: p6)))) := by
    have hi := List.intercalate_splitOn (normalizeMac mac) ':'
    rw [hsplit] at hi
    rw [← hi]
    simp [List.intercalate]
  have hlen : (normalizeMac mac).length = 17 := by
    rw [hm]
    simp [List.length_append, l1, l2, l3, l4, l5, l6]
  have hcount : (normalizeMac mac).count ':' = 5 := by
    rw [hm]
    simp [List.count_append, List.count_cons, List.count_eq_zero.mpr h1,
      List.count_eq_zero.mpr h2, List.count_eq_zero.mpr h3, List.count_eq_zero.mpr h4,
      List.count_eq_zero.mpr h5, List.count_eq_zero.mpr h6]
  have hout : mac_to_oui mac = p1 ++ ':' :: (p2 ++ ':' :: p3) := by
    simp only [mac_to_oui]
    rw [if_pos ⟨hlen, hcount⟩, hsplit]
    simp [List.intercalate]
  refine ⟨hout, ?_, ⟨h1, h2, h3⟩, ?_⟩
  · rw [hout]
    simp [List.length_append, l1, l2, l3]
  · intro c hc
    rw [hout] at hc
    have hmem : c = ':' ∨ c ∈ normalizeMac mac := by
      rw [hm]
      simp only [List.mem_append, List.mem_cons] at hc ⊢
      tauto
    rcases hmem with h | h
    · subst h
      decide
    · have hcd : c ∈ dashToColon (upper (strip mac)) := h
      exact isLower_mem_dashToColon_upper (strip mac) c hcd

/-- C5 witness: the lowercase, dash-separated address
`aa-bb-cc-11-22-33` extracts the canonical prefix `AA:BB:CC`. -/
theorem C5_mac_to_oui_canonical_witness :
    mac_to_oui (("aa-bb-cc-11-22-33").data)
      = ("AA").data ++ ':' :: (("BB").data ++ ':' :: ("CC").data) :=
  ((C5_mac_to_oui_canonical (("aa-bb-cc-11-22-33").data)).2.2.2 (("AA").data) (("BB").data)
      (("CC").data) (("11").data) (("22").data) (("33").data) (by decide) (by decide)
      (by decide) (by decide) (by decide) (by decide) (by decide)).1

end DroneScan
